import Mathlib

/-!
Verification of the TECA CF reader and algorithm stages.

Shallow embedding of the relevant parts of the source:
  * `src/io/teca_cf_reader.cxx` — metadata-cache search, cache-key construction,
    time-axis calendar validation, and `execute` (time-step resolution,
    bounds/extent resolution, array reads);
  * `src/alg/teca_vorticity.cxx` — upstream request translation and the
    vorticity kernel;
  * the vertical-integral kernel (third unit of `src/test/array_temporal_stats.h`);
  * `src/alg/teca_dataset_diff.cxx` — the execute of the diff stage.

Machine doubles are modelled by `ℚ` (the claims settled here are exact value or
control-flow facts that do not hinge on rounding); `std::set<std::string>` by
`Finset String`; fallible operations by `Option`.
-/

/-! ## Time-step resolution (teca_cf_reader::execute, lines 1191-1199)

The C++ loop:
```
unsigned long idx = 0, count = 0;
for (unsigned int i = 1;
     (i < step_count.size()) && ((count + step_count[i-1]) <= time_step);
     ++idx, ++i)
    count += step_count[i-1];
unsigned long offs = time_step - count;
```
`resolveLoop sc ts idx count` runs the loop with `sc` the tail of `step_count`
from position `idx`; the guard `i < size` is `rest ≠ []` because `i = idx + 1`.
-/

def resolveLoop : List ℕ → ℕ → ℕ → ℕ → ℕ × ℕ
  | [], _, idx, count => (idx, count)
  | c :: rest, ts, idx, count =>
    if rest ≠ [] ∧ count + c ≤ ts then resolveLoop rest ts (idx + 1) (count + c)
    else (idx, count)

/-- The file index and local offset the reader derives from `step_count` for a
requested global time step. -/
def resolve_step (sc : List ℕ) (ts : ℕ) : ℕ × ℕ :=
  let r := resolveLoop sc ts 0 0
  (r.1, ts - r.2)

lemma sumTake_mono (sc : List ℕ) : ∀ {m n : ℕ}, m ≤ n →
    (sc.take m).sum ≤ (sc.take n).sum := by
  induction sc with
  | nil => intro m n _; simp
  | cons c rest ih =>
    intro m n hmn
    cases m with
    | zero => simp
    | succ m' =>
      cases n with
      | zero => omega
      | succ n' =>
        simp only [List.take_succ_cons, List.sum_cons]
        exact Nat.add_le_add_left (ih (Nat.succ_le_succ_iff.mp hmn)) c

lemma sumTake_le_sum (sc : List ℕ) (n : ℕ) : (sc.take n).sum ≤ sc.sum := by
  conv_rhs => rw [← List.take_append_drop n sc]
  rw [List.sum_append]
  exact Nat.le_add_right _ _

lemma resolveLoop_spec : ∀ (sc : List ℕ) (ts idx count : ℕ),
    count ≤ ts → ts < count + sc.sum →
    ∃ k, resolveLoop sc ts idx count = (idx + k, count + (sc.take k).sum)
      ∧ count + (sc.take k).sum ≤ ts
      ∧ ts < count + (sc.take (k + 1)).sum := by
  intro sc
  induction sc with
  | nil =>
    intro ts idx count h1 h2
    simp only [List.sum_nil, Nat.add_zero] at h2
    omega
  | cons c rest ih =>
    intro ts idx count h1 h2
    by_cases hc : rest ≠ [] ∧ count + c ≤ ts
    · obtain ⟨k, hk, hk1, hk2⟩ := ih ts (idx + 1) (count + c) hc.2 (by
        simp only [List.sum_cons] at h2; omega)
      refine ⟨k + 1, ?_, ?_, ?_⟩
      · rw [resolveLoop, if_pos hc, hk]
        simp only [List.take_succ_cons, List.sum_cons, Prod.mk.injEq]
        omega
      · simp only [List.take_succ_cons, List.sum_cons]; omega
      · simp only [List.take_succ_cons, List.sum_cons]; omega
    · refine ⟨0, ?_, ?_, ?_⟩
      · rw [resolveLoop, if_neg hc]; simp
      · simpa using h1
      · simp only [List.take_succ_cons, List.take_zero, List.sum_cons,
          List.sum_nil, Nat.add_zero]
        by_cases hle : count + c ≤ ts
        · have hrest : rest = [] := by
            by_contra hr
            exact hc ⟨hr, hle⟩
          subst hrest
          simp only [List.sum_cons, List.sum_nil, Nat.add_zero] at h2
          omega
        · omega

/-- C1: for a requested time step inside the dataset, the reader loop over
`step_count` yields exactly the file index `g` characterized by
`sum_{k<g} step_count[k] ≤ ts < sum_{k≤g} step_count[k]`, with local offset
`ts - sum_{k<g} step_count[k]`; since `resolve_step` is a function, that index
is unique. -/
theorem cf_reader_step_resolution (sc : List ℕ) (ts g : ℕ)
    (hg1 : (sc.take g).sum ≤ ts) (hg2 : ts < (sc.take (g + 1)).sum) :
    resolve_step sc ts = (g, ts - (sc.take g).sum) := by
  have htot : ts < sc.sum := lt_of_lt_of_le hg2 (sumTake_le_sum sc (g + 1))
  obtain ⟨k, hk, hk1, hk2⟩ := resolveLoop_spec sc ts 0 0 (Nat.zero_le ts)
    (by simpa using htot)
  simp only [Nat.zero_add] at hk hk1 hk2
  have hkg : k = g := by
    rcases Nat.lt_trichotomy k g with h | h | h
    · have : (sc.take (k + 1)).sum ≤ (sc.take g).sum := sumTake_mono sc h
      omega
    · exact h
    · have : (sc.take (g + 1)).sum ≤ (sc.take k).sum := sumTake_mono sc h
      omega
  subst hkg
  simp only [resolve_step, hk]

/-- Witness for C1: `step_count = [2,3,1]`, global step 4 resolves to file 1,
local offset 2. -/
theorem cf_reader_step_resolution_witness :
    resolve_step [2, 3, 1] 4 = (1, 4 - ([2, 3, 1].take 1).sum) :=
  cf_reader_step_resolution [2, 3, 1] 4 1 (by decide) (by decide)

/-! ## Metadata cache file search (teca_cf_reader::get_output_metadata, lines 279-333)

The C++ source:
```
std::string metadata_cache_path[4] =
    {(getenv("HOME") ? : "."), ".", path, metadata_cache_dir};
int n_metadata_cache_paths = metadata_cache_dir.empty() ? 2 : 3;
for (int i = n_metadata_cache_paths; i >= 0; --i) { probe path i ... break on success }
```
`readable f` stands for `file_exists(f) && read_stream(f) succeeds`; the loop
falls through to the next candidate when either fails.
-/

def cacheFileName (dir key : String) : String := dir ++ ("/.") ++ key ++ (".tmd")

/-- The probe directory array `{HOME, ".", path, metadata_cache_dir}`. -/
def cacheDirAt (home path userDir : String) (i : ℕ) : String :=
  [home, ".", path, userDir].getD i ("")

def nCachePaths (userDir : String) : ℕ := if userDir = "" then 2 else 3

/-- The descending loop `for (int i = n; i >= 0; --i)` visits indices `n, …, 0`. -/
def cacheProbeFiles (home path userDir key : String) : List String :=
  ((List.range (nCachePaths userDir + 1)).reverse).map
    (fun i => cacheFileName (cacheDirAt home path userDir i) key)

def firstHit (readable : String → Bool) : List String → Option String
  | [] => none
  | f :: rest => if readable f then some f else firstHit readable rest

/-- The cache file the reader ends up loading (none when no candidate is readable). -/
def cfReaderLoadCache (readable : String → Bool) (home path userDir key : String) :
    Option String :=
  firstHit readable (cacheProbeFiles home path userDir key)

/-- The search the spec describes, word for word: probe
`[HOME, cwd, data-root, user-dir]` in that order, first readable match wins.
(Stated from the spec for comparison with `cfReaderLoadCache`.) -/
def specCacheSearch (readable : String → Bool) (home path userDir key : String) :
    Option String :=
  firstHit readable
    [cacheFileName home key, cacheFileName (".") key,
     cacheFileName path key, cacheFileName userDir key]

/-- C2 counterexample: with every candidate readable, the code loads the
user-dir cache file while the spec order would load the HOME one. -/
theorem cf_cache_probe_order_cex :
    cfReaderLoadCache (fun _ => true) ("h") ("d") ("u") ("k")
      ≠ specCacheSearch (fun _ => true) ("h") ("d") ("u") ("k") := by
  decide

/-- C2 amended: the reader probes `[user-dir, data-root, cwd, HOME]` — the
reverse of the spec order — and the first readable match is the one loaded
(when no user dir is configured the user-dir entry is dropped). -/
theorem cf_cache_probe_order_amended (readable : String → Bool)
    (home path userDir key : String) (h : userDir ≠ "") :
    cfReaderLoadCache readable home path userDir key
      = firstHit readable
          [cacheFileName userDir key, cacheFileName path key,
           cacheFileName (".") key, cacheFileName home key] := by
  simp only [cfReaderLoadCache, cacheProbeFiles, nCachePaths, if_neg h]
  rfl

/-- Witness for the amended C2 claim at a concrete configuration. -/
theorem cf_cache_probe_order_amended_witness :
    cfReaderLoadCache (fun f => f = ("d/.k.tmd")) ("h") ("d") ("u") ("k")
      = firstHit (fun f => f = ("d/.k.tmd"))
          [cacheFileName ("u") ("k"), cacheFileName ("d") ("k"),
           cacheFileName (".") ("k"), cacheFileName ("h") ("k")] :=
  cf_cache_probe_order_amended (fun f => f = ("d/.k.tmd")) ("h") ("d") ("u") ("k")
    (by decide)

/-! ## Metadata cache key (lines 284-307 and create_metadata_cache_key, lines 57-82)

The key is `SHA1(TECA_VERSION_DESCR ‖ bs)` where `bs` packs, in order:
path, files, files_regex, file_names, x/y/z/t axis variable, t_units,
t_calendar, t_values, filename_time_template, periodic_in_x/y/z.
The hash input is modelled as the structured token stream fed to SHA1
(collision-freeness of SHA1 itself is outside the embedding).
-/

inductive PackItem where
  | pstr (s : String)
  | pstrs (l : List String)
  | pdbls (l : List ℚ)
  | pint (n : ℤ)
deriving DecidableEq, Repr

/-- The full reader property bag (`get_properties_description`, lines 119-163). -/
structure CfReaderProps where
  file_names : List String
  files_regex : String
  metadata_cache_dir : String
  x_axis_variable : String
  y_axis_variable : String
  z_axis_variable : String
  t_axis_variable : String
  t_calendar : String
  t_units : String
  filename_time_template : String
  t_values : List ℚ
  periodic_in_x : ℤ
  periodic_in_y : ℤ
  periodic_in_z : ℤ
  thread_pool_size : ℤ
  cache_metadata : ℤ
deriving DecidableEq, Repr

/-- The byte stream hashed into the metadata cache key, as the structured
sequence of `bs.pack` calls prefixed by the version string. -/
def metadataCacheKeyInput (version path : String) (files : List String)
    (p : CfReaderProps) : String × List PackItem :=
  (version,
   [PackItem.pstr path, PackItem.pstrs files,
    PackItem.pstr p.files_regex, PackItem.pstrs p.file_names,
    PackItem.pstr p.x_axis_variable, PackItem.pstr p.y_axis_variable,
    PackItem.pstr p.z_axis_variable, PackItem.pstr p.t_axis_variable,
    PackItem.pstr p.t_units, PackItem.pstr p.t_calendar,
    PackItem.pdbls p.t_values, PackItem.pstr p.filename_time_template,
    PackItem.pint p.periodic_in_x, PackItem.pint p.periodic_in_y,
    PackItem.pint p.periodic_in_z])

def cfPropsBase : CfReaderProps :=
  { file_names := [], files_regex := ("data.*nc"), metadata_cache_dir := "",
    x_axis_variable := ("lon"), y_axis_variable := ("lat"),
    z_axis_variable := "", t_axis_variable := ("time"),
    t_calendar := "", t_units := "", filename_time_template := "",
    t_values := [], periodic_in_x := 0, periodic_in_y := 0, periodic_in_z := 0,
    thread_pool_size := -1, cache_metadata := 1 }

/-- C3 counterexample: two reader configurations that differ in a reader
property (`thread_pool_size`) produce the identical cache-key hash input —
`thread_pool_size`, `metadata_cache_dir` and `cache_metadata` are not packed. -/
theorem cf_cache_key_all_props_cex :
    metadataCacheKeyInput ("TECA 4.0.0") ("/data") [("a.nc")] cfPropsBase
      = metadataCacheKeyInput ("TECA 4.0.0") ("/data") [("a.nc")]
          { cfPropsBase with thread_pool_size := 4 }
    ∧ cfPropsBase ≠ { cfPropsBase with thread_pool_size := 4 } := by
  constructor
  · rfl
  · decide

/-- C3 amended: the cache key input determines (and is determined by) the
version, path, file list and the packed subset of reader properties:
files_regex, file_names, the four axis variable names, t_units, t_calendar,
t_values, filename_time_template and the three periodic flags. Two
configurations differing in any of those yield different hash inputs. -/
theorem cf_cache_key_packed_props (version path : String) (files : List String)
    (a b : CfReaderProps)
    (h : metadataCacheKeyInput version path files a
       = metadataCacheKeyInput version path files b) :
    a.files_regex = b.files_regex ∧ a.file_names = b.file_names
    ∧ a.x_axis_variable = b.x_axis_variable ∧ a.y_axis_variable = b.y_axis_variable
    ∧ a.z_axis_variable = b.z_axis_variable ∧ a.t_axis_variable = b.t_axis_variable
    ∧ a.t_units = b.t_units ∧ a.t_calendar = b.t_calendar
    ∧ a.t_values = b.t_values
    ∧ a.filename_time_template = b.filename_time_template
    ∧ a.periodic_in_x = b.periodic_in_x ∧ a.periodic_in_y = b.periodic_in_y
    ∧ a.periodic_in_z = b.periodic_in_z := by
  simp only [metadataCacheKeyInput, Prod.mk.injEq, List.cons.injEq,
    PackItem.pstr.injEq, PackItem.pstrs.injEq, PackItem.pdbls.injEq,
    PackItem.pint.injEq, and_true, true_and] at h
  tauto

/-- Witness for the amended C3 claim at a concrete configuration. -/
theorem cf_cache_key_packed_props_witness :
    cfPropsBase.files_regex = cfPropsBase.files_regex
    ∧ cfPropsBase.file_names = cfPropsBase.file_names
    ∧ cfPropsBase.x_axis_variable = cfPropsBase.x_axis_variable
    ∧ cfPropsBase.y_axis_variable = cfPropsBase.y_axis_variable
    ∧ cfPropsBase.z_axis_variable = cfPropsBase.z_axis_variable
    ∧ cfPropsBase.t_axis_variable = cfPropsBase.t_axis_variable
    ∧ cfPropsBase.t_units = cfPropsBase.t_units
    ∧ cfPropsBase.t_calendar = cfPropsBase.t_calendar
    ∧ cfPropsBase.t_values = cfPropsBase.t_values
    ∧ cfPropsBase.filename_time_template = cfPropsBase.filename_time_template
    ∧ cfPropsBase.periodic_in_x = cfPropsBase.periodic_in_x
    ∧ cfPropsBase.periodic_in_y = cfPropsBase.periodic_in_y
    ∧ cfPropsBase.periodic_in_z = cfPropsBase.periodic_in_z :=
  cf_cache_key_packed_props ("TECA 4.0.0") ("/data") [("a.nc")]
    cfPropsBase cfPropsBase rfl

/-! ## Time-axis calendar validation (teca_cf_reader::get_output_metadata, lines 562-767)

The base time attributes come from the first file; the `t_calendar`/`t_units`
properties override them; `has_calendar`/`has_units` record presence *before*
the `"standard"` default is inserted; each per-file calendar is then checked by
```
if ((!has_calendar && !calendar_i.empty())
    || (has_calendar && (calendar_i != base_calendar))) { error; return {}; }
```
and its units are copied when equal to the base, converted otherwise
(requiring the base to have units at all).
-/

structure TimeAtts where
  calendar : Option String
  units : Option String
deriving DecidableEq, Repr

structure BaseTime where
  hasCalendar : Bool
  baseCalendar : String
  hasUnits : Bool
  baseUnits : String
deriving DecidableEq, Repr

/-- Lines 576-627: apply the property overrides, record presence flags, and
default a missing calendar to `"standard"`. -/
def baseTimeSetup (tCalProp tUnitsProp : String) (atts0 : TimeAtts) : BaseTime :=
  let a1 := if tCalProp ≠ "" then { atts0 with calendar := some tCalProp } else atts0
  let a2 := if tUnitsProp ≠ "" then { a1 with units := some tUnitsProp } else a1
  let hasU := a2.units.isSome
  let hasC := a2.calendar.isSome
  let a3 := if !hasC then { a2 with calendar := some ("standard") } else a2
  { hasCalendar := hasC, baseCalendar := a3.calendar.getD (""),
    hasUnits := hasU, baseUnits := a3.units.getD ("") }

/-- Lines 676-685: the per-file calendar error condition; `calI` is the calendar attribute of the file with `""` when the attribute is missing. -/
def fileCalendarBad (hasCal : Bool) (baseCal calI : String) : Bool :=
  (!hasCal && calI ≠ "") || (hasCal && calI ≠ baseCal)

inductive UnitsAction where
  | copy
  | err
  | convert
deriving DecidableEq, Repr

/-- Lines 697-766: what happens to the time values of a file given its units. -/
def fileUnitsAction (hasUnits : Bool) (baseUnits unitsI : String) : UnitsAction :=
  if unitsI = baseUnits then UnitsAction.copy
  else if !hasUnits then UnitsAction.err
  else UnitsAction.convert

def cfTimeAttsNoCalendar : TimeAtts :=
  { calendar := none, units := some ("days since 2000-01-01") }

/-- C4: when the base time attributes carry no calendar the effective base
calendar becomes "standard", yet a file that reports exactly that calendar
trips the error branch — the code errors on a file whose calendar *agrees*
with the base calendar, contradicting its own comment ("it is an error for
the files to have different calendars") and the semantics the spec adopts.
When the base does carry a calendar, an agreeing file passes, and a file
with different (but present) units is converted rather than rejected. -/
theorem cf_time_axis_calendar_bug :
    (baseTimeSetup ("") ("") cfTimeAttsNoCalendar).baseCalendar = ("standard")
    ∧ fileCalendarBad (baseTimeSetup ("") ("") cfTimeAttsNoCalendar).hasCalendar
        (baseTimeSetup ("") ("") cfTimeAttsNoCalendar).baseCalendar ("standard") = true
    ∧ fileCalendarBad true ("noleap") ("noleap") = false
    ∧ fileUnitsAction true ("days since 2000-01-01") ("hours since 2000-01-01")
        = UnitsAction.convert := by
  decide

/-! ## Vorticity stage upstream request (teca_vorticity.cxx, lines 117-223)

`get_component_0_variable` resolves the consumed variable name from the stage
property, falling back to the request key `teca_vorticity::component_0_variable`
when the property is empty (likewise for component 1 and the produced
vorticity variable, whose final fallback is `"vorticity"`). After validating
the *resolved* names, `get_upstream_request` inserts the raw property values
`this->component_0_variable` / `this->component_1_variable` into the `arrays`
set and erases the resolved vorticity variable; all other request keys are
copied through.
-/

structure VorticityProps where
  component_0_variable : String
  component_1_variable : String
  vorticity_variable : String
deriving DecidableEq, Repr

structure VortRequest where
  comp0Key : Option String
  comp1Key : Option String
  vortKey : Option String
  arrays : Option (Finset String)
  rest : List (String × String)
deriving DecidableEq

def getComp0Var (p : VorticityProps) (r : VortRequest) : String :=
  if p.component_0_variable ≠ "" then p.component_0_variable
  else (r.comp0Key.getD (""))

def getComp1Var (p : VorticityProps) (r : VortRequest) : String :=
  if p.component_1_variable ≠ "" then p.component_1_variable
  else (r.comp1Key.getD (""))

def getVortVar (p : VorticityProps) (r : VortRequest) : String :=
  if p.vorticity_variable ≠ "" then p.vorticity_variable
  else (r.vortKey.getD ("vorticity"))

/-- teca_vorticity::get_upstream_request (lines 178-223). An empty result is
the failure sentinel. -/
def vortUpstreamRequest (p : VorticityProps) (r : VortRequest) : List VortRequest :=
  let c0 := getComp0Var p r
  if c0 = "" then [] else
  let c1 := getComp1Var p r
  if c1 = "" then [] else
  let arrays0 : Finset String := r.arrays.getD ∅
  let arrays1 :=
    (insert p.component_0_variable (insert p.component_1_variable arrays0)).erase
      (getVortVar p r)
  [{ r with arrays := some arrays1 }]

def vortPropsCex : VorticityProps :=
  { component_0_variable := "", component_1_variable := ("v"),
    vorticity_variable := ("vorticity") }

def vortReqCex : VortRequest :=
  { comp0Key := some ("u"), comp1Key := none, vortKey := none,
    arrays := none, rest := [] }

/-- C5: with an empty `component_0_variable` property and the request
supplying `teca_vorticity::component_0_variable = "u"`, the stage resolves
and validates `"u"` but then inserts the raw (empty) property into the
upstream `arrays` set: the emitted request omits the consumed variable `"u"`
and carries the empty string instead, so the later lookup in `execute` of the
resolved name cannot be satisfied. -/
theorem vorticity_upstream_request_bug :
    getComp0Var vortPropsCex vortReqCex = ("u")
    ∧ (vortUpstreamRequest vortPropsCex vortReqCex).map
        (fun r => (decide (("u" : String) ∈ r.arrays.getD ∅),
                   decide (("" : String) ∈ r.arrays.getD ∅),
                   decide (("v" : String) ∈ r.arrays.getD ∅)))
      = [(false, true, true)] := by
  decide

/-! ## Vorticity kernel (teca_vorticity.cxx, lines 32-73)

```
dlon = (lon[1]-lon[0])*deg_to_rad;
dx[i] = R * cos(lat[i]*deg_to_rad) * dlon;            // i < nx
dy[j] = 0.5*R*deg_to_rad*(lat[j-1]-lat[j+1]);          // 0 < j < ny-1
dy[0] = dy[1];  dy[ny-1] = dy[ny-2];
memset(w, 0, nx*ny);
for j in [1, ny-1), i in [1, nx-1):
  w[j*nx+i] = 0.5*((c1[j*nx+i+1]-c1[j*nx+i-1])/dx[i]
                 - (c0[(j-1)*nx+i]-c0[(j+1)*nx+i])/dy[j]);
```
The math library is a parameter: `cosA` stands for `cos` and `piA` for `M_PI`,
so the theorems hold for any model of them (in particular the real ones).
Each output entry is written exactly once, so the kernel is rendered as a
function of the flat index `idx = j*nx + i`.
-/

def degToRad (piA : ℚ) : ℚ := piA / 180

def earthRadius : ℚ := 6371000

def vortDx (cosA : ℚ → ℚ) (piA : ℚ) (lat lon : ℕ → ℚ) (i : ℕ) : ℚ :=
  earthRadius * cosA (lat i * degToRad piA) * ((lon 1 - lon 0) * degToRad piA)

def vortDyInterior (piA : ℚ) (lat : ℕ → ℚ) (j : ℕ) : ℚ :=
  (1 / 2) * earthRadius * degToRad piA * (lat (j - 1) - lat (j + 1))

def vortDy (piA : ℚ) (lat : ℕ → ℚ) (ny j : ℕ) : ℚ :=
  if j = 0 then vortDyInterior piA lat 1
  else if j = ny - 1 then vortDyInterior piA lat (ny - 2)
  else vortDyInterior piA lat j

/-- The vorticity kernel output at flat index `idx` (`j = idx / nx`,
`i = idx % nx`); entries outside the interior stay at the `memset` zero. -/
def vorticityW (cosA : ℚ → ℚ) (piA : ℚ) (lat lon c0 c1 : ℕ → ℚ)
    (nx ny idx : ℕ) : ℚ :=
  let j := idx / nx
  let i := idx % nx
  if 1 ≤ j ∧ j < ny - 1 ∧ 1 ≤ i ∧ i < nx - 1 then
    (1 / 2) * ((c1 (idx + 1) - c1 (idx - 1)) / vortDx cosA piA lat lon i
             - (c0 (idx - nx) - c0 (idx + nx)) / vortDy piA lat ny j)
  else 0

/-- C7: over any lat/lon mesh — in particular the 3×3 mesh with
`lat=[10,0,-10]`, `lon=[0,10,20]` — and any model of `cos`/`π`, constant wind
components make every interior central difference vanish, so the kernel
value is exactly 0 (hence within 1e-12) at every interior point, and the
boundary entries stay at the zero the kernel initializes them to. -/
theorem vorticity_constant_wind_zero (cosA : ℚ → ℚ) (piA : ℚ)
    (lat lon : ℕ → ℚ) (u v : ℚ) (nx ny idx : ℕ) :
    vorticityW cosA piA lat lon (fun _ => u) (fun _ => v) nx ny idx = 0
    ∧ |vorticityW cosA piA lat lon (fun _ => u) (fun _ => v) nx ny idx|
        ≤ 1 / 1000000000000 := by
  have h0 : vorticityW cosA piA lat lon (fun _ => u) (fun _ => v) nx ny idx = 0 := by
    unfold vorticityW
    simp only []
    split
    · simp
    · rfl
  refine ⟨h0, ?_⟩
  rw [h0]
  norm_num

/-! ## Vertical integral kernel (third unit of src/test/array_temporal_stats.h,
lines 289-347 of teca_vertical_integral.cxx)

```
for i < nx, j < ny:
  n2d = j + ny*i; tmp = 0;
  for k < nz:
    n3d = k + nz*(j + ny*i);
    dp = csystem == 1 ? p_top*(a[k+1]-a[k]) + ps[n2d]*(b[k+1]-b[k])
                      : (ps[n2d]-p_top)*(a[k+1]-a[k]);
    tmp += (-1/9.81) * array[n3d] * dp;
  array_int[n2d] = tmp;
```
-/

def negOneOverG : ℚ := (-1) / (981 / 100)

def vertDp (csystem : ℤ) (aOrSigma b : ℕ → ℚ) (psv pTop : ℚ) (k : ℕ) : ℚ :=
  if csystem = 1 then pTop * (aOrSigma (k + 1) - aOrSigma k) + psv * (b (k + 1) - b k)
  else (psv - pTop) * (aOrSigma (k + 1) - aOrSigma k)

/-- The vertical integral at 2-D output index `n2d = j + ny*i`. -/
def verticalIntegralAt (array : ℕ → ℚ) (ny nz : ℕ) (csystem : ℤ)
    (aOrSigma b ps : ℕ → ℚ) (pTop : ℚ) (i j : ℕ) : ℚ :=
  let n2d := j + ny * i
  ∑ k in Finset.range nz,
    negOneOverG * array (k + nz * n2d) * vertDp csystem aOrSigma b (ps n2d) pTop k

def hybridACex : ℕ → ℚ := fun k => ([0, 1/4, 1/2, 3/4, 1] : List ℚ).getD k 0

/-- C8: on the 1×1×4 hybrid-coordinate mesh with interface coordinates
`a=[0,0.25,0.5,0.75,1]`, `b=0`, `p_top=100` and integrand `q=1`, the single
output value is exactly `−(1/9.81)·1·100` (so within 1e-6), for every surface
pressure field `ps` — the `b` differences vanish, removing `ps` from `dp`. -/
theorem vertical_integral_hybrid_constant (ps : ℕ → ℚ) :
    verticalIntegralAt (fun _ => 1) 1 4 1 hybridACex (fun _ => 0) ps 100 0 0
      = (-(1 / (981 / 100))) * 1 * 100
    ∧ |verticalIntegralAt (fun _ => 1) 1 4 1 hybridACex (fun _ => 0) ps 100 0 0
        - (-(1 / (981 / 100))) * 1 * 100| ≤ 1 / 1000000 := by
  have h : verticalIntegralAt (fun _ => 1) 1 4 1 hybridACex (fun _ => 0) ps 100 0 0
      = (-(1 / (981 / 100))) * 1 * 100 := by
    simp only [verticalIntegralAt, vertDp, negOneOverG, hybridACex,
      Finset.sum_range_succ, Finset.sum_range_zero]
    norm_num
  refine ⟨h, ?_⟩
  rw [h]
  norm_num

/-! ## Dataset diff stage (teca_dataset_diff.cxx, lines 172-284 and helpers)

Datasets reaching the diff stage are either tables (name → column of doubles)
or some other concrete dataset class; the comparison dispatches on the
dynamic type of the *reference* dataset. `compare_arrays` (lines 361-448) compares
element-wise with a relative-difference tolerance; `compare_tables`
(lines 287-358) checks column and row counts then the columns by position.
`execute` logs a structured error (collected here as a message list) on each
failing path and returns the null dataset on *every* path, the successful
comparison included.
-/

inductive DiffDS where
  | table (cols : List (String × List ℚ))
  | other (className : String) (emptyFlag : Bool)
deriving DecidableEq, Repr

def DiffDS.isEmptyDS : DiffDS → Bool
  | DiffDS.table cols => cols.isEmpty
  | DiffDS.other _ e => e

/-- teca_dataset_diff::compare_arrays restricted to double arrays; returns 0
on agreement within the relative tolerance, -1 otherwise. -/
def compareArraysQ (tol : ℚ) (a1 a2 : List ℚ) : Int :=
  if a1.length ≠ a2.length then -1
  else if (List.range a1.length).all (fun i =>
      let r := a1.getD i 0
      let c := a2.getD i 0
      let rd := if r ≠ 0 then |c - r| / |r| else if c ≠ 0 then |c - r| / |c| else 0
      decide (rd ≤ tol)) then 0 else -1

def tableRows (cols : List (String × List ℚ)) : ℕ :=
  match cols with
  | [] => 0
  | c :: _ => c.2.length

/-- teca_dataset_diff::compare_tables. -/
def compareTablesQ (tol : ℚ) (t1 t2 : List (String × List ℚ)) : Int :=
  if t1.length ≠ t2.length then -1
  else if tableRows t1 ≠ tableRows t2 then -1
  else if (List.range t1.length).all (fun c =>
      compareArraysQ tol (t1.getD c (("", []))).2 (t2.getD c (("", []))).2 == 0)
    then 0 else -1

/-- teca_dataset_diff::execute: the emitted error messages paired with the
returned dataset. -/
def diffExecute (tol : ℚ) (d0 d1 : Option DiffDS) :
    List String × Option DiffDS :=
  match d0, d1 with
  | none, none => ([], none)
  | none, some _ => ([("Input dataset 1 is NULL.")], none)
  | some _, none => ([("Input dataset 2 is NULL.")], none)
  | some a, some b =>
    if a.isEmptyDS && !b.isEmptyDS then
      ([("dataset 1 is empty, 2 is not.")], none)
    else if !a.isEmptyDS && b.isEmptyDS then
      ([("dataset 2 is empty, 1 is not.")], none)
    else if a.isEmptyDS && b.isEmptyDS then
      ([("Both the reference and test datasets are empty")], none)
    else
      match a, b with
      | DiffDS.table c1, DiffDS.table c2 =>
        if compareTablesQ tol c1 c2 ≠ 0 then ([("Failed to compare tables.")], none)
        else ([], none)
      | DiffDS.table _, DiffDS.other _ _ =>
        ([("Failed to compare tables.")], none)
      | DiffDS.other className _, _ =>
        ([("Unsupported dataset type ") ++ className], none)

def diffTableA : DiffDS := DiffDS.table [(("c"), [1, 2])]

def diffTableB : DiffDS := DiffDS.table [(("c"), [1, 3])]

/-- C9: the diff stage returns the null dataset on every control path — null
or empty inputs, unsupported dataset type, tolerance-exceeding difference,
and the successful equal-within-tolerance comparison alike — so a null
return alone cannot distinguish success (no error logged) from failure (an
error logged), as the two concrete runs at the end show. -/
theorem dataset_diff_always_null :
    (∀ (tol : ℚ) (d0 d1 : Option DiffDS), (diffExecute tol d0 d1).2 = none)
    ∧ (diffExecute (1 / 1000000) (some diffTableA) (some diffTableA)).1 = []
    ∧ (diffExecute (1 / 1000000) (some diffTableA) (some diffTableB)).1 ≠ [] := by
  refine ⟨?_, ?_, ?_⟩
  · intro tol d0 d1
    match d0, d1 with
    | none, none => rfl
    | none, some _ => rfl
    | some _, none => rfl
    | some a, some b =>
      simp only [diffExecute]
      split
      · rfl
      · split
        · rfl
        · split
          · rfl
          · match a, b with
            | DiffDS.table c1, DiffDS.table c2 =>
              simp only []
              split <;> rfl
            | DiffDS.table _, DiffDS.other _ _ => rfl
            | DiffDS.other _ _, _ => rfl
  · have ha : compareArraysQ (1 / 1000000) [1, 2] [1, 2] = 0 := by
      norm_num [compareArraysQ, List.range_succ]
    have ht : compareTablesQ (1 / 1000000) [(("c"), [1, 2])] [(("c"), [1, 2])] = 0 := by
      norm_num [compareTablesQ, tableRows, List.range_succ, ha]
    rw [one_div] at ht
    simp [diffExecute, diffTableA, DiffDS.isEmptyDS, ht]
  · have ha : compareArraysQ (1 / 1000000) [1, 2] [1, 3] = -1 := by
      norm_num [compareArraysQ, List.range_succ]
    have ht : compareTablesQ (1 / 1000000) [(("c"), [1, 2])] [(("c"), [1, 3])] = -1 := by
      norm_num [compareTablesQ, tableRows, List.range_succ, ha]
    rw [one_div] at ht
    simp [diffExecute, diffTableA, diffTableB, DiffDS.isEmptyDS, ht]

/-! ## teca_cf_reader::execute (lines 1057-1433)

The embedding keeps the parts of `execute` the claims are about: time-step
resolution from the request, `bounds`/`extent` resolution against the
coordinate arrays, file location through `step_count`, and the per-array read
loop that classifies each requested array as a mesh variable (hyperslab read
at the resolved file/offset) or an information variable. Metadata that the
record type carries by construction (`coordinates`, `whole_extent`,
`step_count`, `files`, `attributes`) corresponds to the early
`TECA_ERROR … return nullptr` guards for missing keys; `openable` stands for
`netcdf_handle::open` succeeding, and a successful `nc_get_vara` is recorded
as the `Slab` (file, starts, counts) it would read.
-/

structure Ext6 where
  i0 : ℕ
  i1 : ℕ
  j0 : ℕ
  j1 : ℕ
  k0 : ℕ
  k1 : ℕ
deriving DecidableEq, Repr

structure Bnd6 where
  x0 : ℚ
  x1 : ℚ
  y0 : ℚ
  y1 : ℚ
  z0 : ℚ
  z1 : ℚ
deriving DecidableEq, Repr

structure ReaderCoords where
  xvar : String
  yvar : String
  zvar : String
  tvar : String
  x : List ℚ
  y : List ℚ
  z : List ℚ
  t : List ℚ
deriving DecidableEq, Repr

structure AttInfo where
  typeCode : ℤ
  ncId : ℤ
  dims : List ℕ
  dimNames : List String
deriving DecidableEq, Repr

structure ReaderMd where
  coords : ReaderCoords
  wholeExtent : Ext6
  stepCount : List ℕ
  files : List String
  rootPath : String
  attrs : List (String × AttInfo)
deriving DecidableEq, Repr

def lookupAttr (attrs : List (String × AttInfo)) (name : String) : Option AttInfo :=
  (attrs.find? (fun kv => kv.1 == name)).map (fun kv => kv.2)

structure ReadRequest where
  time : Option ℚ
  timeStep : ℕ
  bounds : Option Bnd6
  extent : Option Ext6
  arrays : List String
deriving DecidableEq, Repr

structure Slab where
  file : String
  starts : List ℕ
  counts : List ℕ
deriving DecidableEq, Repr

structure OutMesh where
  xvar : String
  yvar : String
  zvar : String
  x : List ℚ
  y : List ℚ
  z : List ℚ
  time : ℚ
  timeStep : ℕ
  wholeExtent : Ext6
  extent : Ext6
  bounds : Bnd6
  pointArrays : List (String × Slab)
  infoArrays : List (String × Slab)
deriving DecidableEq, Repr

/-- Modelled from the spec: `teca_coordinate_util::index_of` (not under src/)
locates the requested time value in the time axis; failure means the
requested time is not found. -/
def indexOfTime (tAxis : List ℚ) (tv : ℚ) : Option ℕ :=
  tAxis.findIdx? (fun v => v == tv)

/-- Lines 1097-1131: translate the request key `time` to a step via the time
axis, or take the requested `time_step` (a step beyond a multi-step axis is
an error; with a single-step axis the time defaults to the initial 0.0). -/
def resolveTimeStep (tAxis : List ℚ) (req : ReadRequest) : Option (ℕ × ℚ) :=
  match req.time with
  | some tv =>
    match indexOfTime tAxis tv with
    | some ts => some (ts, tv)
    | none => none
  | none =>
    let ts := req.timeStep
    if ts < tAxis.length then some (ts, tAxis.getD ts 0)
    else if tAxis.length ≠ 1 then none
    else some (ts, 0)

/-- Lines 1152-1157: the bounds read off the coordinate arrays at the ends of
an extent. -/
def coordBounds (c : ReaderCoords) (e : Ext6) : Bnd6 :=
  { x0 := c.x.getD e.i0 0, x1 := c.x.getD e.i1 0,
    y0 := c.y.getD e.j0 0, y1 := c.y.getD e.j1 0,
    z0 := c.z.getD e.k0 0, z1 := c.z.getD e.k1 0 }

/-- Modelled from the spec: `teca_coordinate_util::bounds_to_extent` (not
under src/) — per axis, search the (ascending) coordinate array for the
smallest inclusive index range covering the bound values; bounds outside the
coordinate range are invalid. -/
def axisCover (c : List ℚ) (lo hi : ℚ) : Option (ℕ × ℕ) :=
  let n := c.length
  if n = 0 then none
  else if lo < c.getD 0 0 ∨ c.getD (n - 1) 0 < hi ∨ hi < lo then none
  else some ((c.findIdx (fun v => decide (lo < v))) - 1,
             c.findIdx (fun v => decide (hi ≤ v)))

/-- Modelled from the spec: the covering inclusive extent of a bounds box. -/
def boundsToExtent (b : Bnd6) (x y z : List ℚ) : Option Ext6 :=
  match axisCover x b.x0 b.x1, axisCover y b.y0 b.y1, axisCover z b.z0 b.z1 with
  | some (i0, i1), some (j0, j1), some (k0, k1) =>
    some { i0 := i0, i1 := i1, j0 := j0, j1 := j1, k0 := k0, k1 := k1 }
  | _, _, _ => none

/-- Lines 1141-1169: no `bounds` key → use the `extent` key, defaulting to
`whole_extent`, and read the bounds off the coordinate arrays; a `bounds`
key → convert to a covering extent, failing on invalid bounds. -/
def resolveExtentBounds (c : ReaderCoords) (whole : Ext6) (req : ReadRequest) :
    Option (Ext6 × Bnd6) :=
  match req.bounds with
  | none =>
    let e := match req.extent with
             | some e => e
             | none => whole
    some (e, coordBounds c e)
  | some b =>
    match boundsToExtent b c.x c.y c.z with
    | some e => some (e, b)
    | none => none

/-- The inclusive slice `new_copy(lo, hi)` of a coordinate array. -/
def listSlice (l : List ℚ) (lo hi : ℕ) : List ℚ := (l.drop lo).take (hi - lo + 1)

/-- Lines 1281-1314: the NetCDF dimension names of a mesh variable, slowest
(time) first, axes with an empty configured variable name omitted. -/
def meshDimNames (p : CfReaderProps) : List String :=
  (if p.t_axis_variable ≠ "" then [p.t_axis_variable] else [])
  ++ (if p.z_axis_variable ≠ "" then [p.z_axis_variable] else [])
  ++ (if p.y_axis_variable ≠ "" then [p.y_axis_variable] else [])
  ++ (if p.x_axis_variable ≠ "" then [p.x_axis_variable] else [])

def meshStarts (p : CfReaderProps) (e : Ext6) (offs : ℕ) : List ℕ :=
  (if p.t_axis_variable ≠ "" then [offs] else [])
  ++ (if p.z_axis_variable ≠ "" then [e.k0] else [])
  ++ (if p.y_axis_variable ≠ "" then [e.j0] else [])
  ++ (if p.x_axis_variable ≠ "" then [e.i0] else [])

def meshCounts (p : CfReaderProps) (e : Ext6) : List ℕ :=
  (if p.t_axis_variable ≠ "" then [1] else [])
  ++ (if p.z_axis_variable ≠ "" then [e.k1 - e.k0 + 1] else [])
  ++ (if p.y_axis_variable ≠ "" then [e.j1 - e.j0 + 1] else [])
  ++ (if p.x_axis_variable ≠ "" then [e.i1 - e.i0 + 1] else [])

/-- Lines 1379-1428: an information (non-spatial) variable is read whole,
except that a leading time dimension is sliced to the resolved local step. -/
def infoSlab (p : CfReaderProps) (info : AttInfo) (file : String) (offs : ℕ) : Slab :=
  let nDims := info.dimNames.length
  let sc0 : ℕ × ℕ :=
    if p.t_axis_variable ≠ "" ∧ info.dimNames.getD 0 ("") = p.t_axis_variable
    then (offs, 1) else (0, info.dims.getD 0 0)
  { file := file,
    starts := sc0.1 :: List.replicate (nDims - 1) 0,
    counts := sc0.2 :: (List.range (nDims - 1)).map (fun ii => info.dims.getD (ii + 1) 0) }

/-- Lines 1317-1430: the read loop; an array whose attribute metadata cannot
be resolved is skipped (`continue`) after the error is logged. -/
def readArraysLoop (p : CfReaderProps) (attrs : List (String × AttInfo))
    (file : String) (e : Ext6) (offs : ℕ) :
    List String → List (String × Slab) × List (String × Slab)
  | [] => ([], [])
  | name :: rest =>
    let r := readArraysLoop p attrs file e offs rest
    match lookupAttr attrs name with
    | none => r
    | some info =>
      if info.dimNames = meshDimNames p then
        ((name, { file := file, starts := meshStarts p e offs,
                  counts := meshCounts p e }) :: r.1, r.2)
      else
        (r.1, (name, infoSlab p info file offs) :: r.2)

/-- teca_cf_reader::execute. -/
def cfReaderExecute (p : CfReaderProps) (md : ReaderMd) (openable : String → Bool)
    (req : ReadRequest) : Option OutMesh :=
  let c := md.coords
  match resolveTimeStep c.t req with
  | none => none
  | some (ts, tv) =>
    match resolveExtentBounds c md.wholeExtent req with
    | none => none
    | some (e, b) =>
      let outX := listSlice c.x e.i0 e.i1
      let outY := listSlice c.y e.j0 e.j1
      let outZ := listSlice c.z e.k0 e.k1
      let r := resolve_step md.stepCount ts
      match md.files[r.1]? with
      | none => none
      | some file =>
        if openable (md.rootPath ++ ("/") ++ file) then
          let arrs := readArraysLoop p md.attrs file e r.2 req.arrays
          some { xvar := c.xvar, yvar := c.yvar, zvar := c.zvar,
                 x := outX, y := outY, z := outZ,
                 time := tv, timeStep := ts,
                 wholeExtent := md.wholeExtent, extent := e, bounds := b,
                 pointArrays := arrs.1, infoArrays := arrs.2 }
        else none

/-- C10: with neither `bounds` nor `extent` in the request the mesh is read
over `whole_extent` and its bounds are the coordinate values at that
endpoints of that extent; a `bounds` key is converted to the covering inclusive
extent, invalid bounds yielding the null dataset. -/
theorem cf_execute_extent_bounds (p : CfReaderProps) (md : ReaderMd)
    (openable : String → Bool) (req : ReadRequest) (m : OutMesh)
    (b : Bnd6) (e : Ext6) :
    (req.bounds = none → req.extent = none →
       cfReaderExecute p md openable req = some m →
       m.extent = md.wholeExtent ∧ m.bounds = coordBounds md.coords md.wholeExtent)
    ∧ (req.bounds = some b →
       boundsToExtent b md.coords.x md.coords.y md.coords.z = none →
       cfReaderExecute p md openable req = none)
    ∧ (req.bounds = some b →
       boundsToExtent b md.coords.x md.coords.y md.coords.z = some e →
       cfReaderExecute p md openable req = some m →
       m.extent = e ∧ m.bounds = b) := by
  refine ⟨?_, ?_, ?_⟩
  · intro hb he hm
    have h2 : resolveExtentBounds md.coords md.wholeExtent req
        = some (md.wholeExtent, coordBounds md.coords md.wholeExtent) := by
      simp [resolveExtentBounds, hb, he]
    simp only [cfReaderExecute] at hm
    cases h1 : resolveTimeStep md.coords.t req with
    | none => simp [h1] at hm
    | some p1 =>
      obtain ⟨ts, tv⟩ := p1
      simp only [h1, h2] at hm
      cases h3 : md.files[(resolve_step md.stepCount ts).1]? with
      | none => simp [h3] at hm
      | some file =>
        simp only [h3] at hm
        by_cases ho : openable (md.rootPath ++ ("/") ++ file) = true
        · simp only [ho, if_true] at hm
          obtain rfl := Option.some.inj hm
          exact ⟨rfl, rfl⟩
        · simp [ho] at hm
  · intro hb hbe
    have h2 : resolveExtentBounds md.coords md.wholeExtent req = none := by
      simp [resolveExtentBounds, hb, hbe]
    simp only [cfReaderExecute]
    cases h1 : resolveTimeStep md.coords.t req with
    | none => rfl
    | some p1 =>
      obtain ⟨ts, tv⟩ := p1
      simp only [h2]
  · intro hb hbe hm
    have h2 : resolveExtentBounds md.coords md.wholeExtent req = some (e, b) := by
      simp [resolveExtentBounds, hb, hbe]
    simp only [cfReaderExecute] at hm
    cases h1 : resolveTimeStep md.coords.t req with
    | none => simp [h1] at hm
    | some p1 =>
      obtain ⟨ts, tv⟩ := p1
      simp only [h1, h2] at hm
      cases h3 : md.files[(resolve_step md.stepCount ts).1]? with
      | none => simp [h3] at hm
      | some file =>
        simp only [h3] at hm
        by_cases ho : openable (md.rootPath ++ ("/") ++ file) = true
        · simp only [ho, if_true] at hm
          obtain rfl := Option.some.inj hm
          exact ⟨rfl, rfl⟩
        · simp [ho] at hm

def cfMdW : ReaderMd :=
  { coords := { xvar := ("lon"), yvar := ("lat"), zvar := ("z"), tvar := ("time"),
                x := [0, 1], y := [10, 20], z := [0], t := [0, 1] },
    wholeExtent := { i0 := 0, i1 := 1, j0 := 0, j1 := 1, k0 := 0, k1 := 0 },
    stepCount := [2], files := [("a.nc")], rootPath := ("/data"),
    attrs := [(("T"), { typeCode := 5, ncId := 3, dims := [2, 2, 2],
                        dimNames := [("time"), ("lat"), ("lon")] })] }

def cfReqPlain : ReadRequest :=
  { time := none, timeStep := 0, bounds := none, extent := none, arrays := [] }

def cfBndBad : Bnd6 := { x0 := -5, x1 := 10, y0 := 10, y1 := 20, z0 := 0, z1 := 0 }

def cfReqBadBounds : ReadRequest := { cfReqPlain with bounds := some cfBndBad }

def cfBndGood : Bnd6 := { x0 := 0, x1 := 1, y0 := 10, y1 := 20, z0 := 0, z1 := 0 }

def cfReqGoodBounds : ReadRequest := { cfReqPlain with bounds := some cfBndGood }

def cfExtGood : Ext6 := { i0 := 0, i1 := 1, j0 := 0, j1 := 1, k0 := 0, k1 := 0 }

def cfMeshPlain : OutMesh :=
  { xvar := ("lon"), yvar := ("lat"), zvar := ("z"),
    x := [0, 1], y := [10, 20], z := [0], time := 0, timeStep := 0,
    wholeExtent := cfExtGood, extent := cfExtGood, bounds := cfBndGood,
    pointArrays := [], infoArrays := [] }

/-- Witness for C10 at a concrete two-file-free dataset: all three branches. -/
theorem cf_execute_extent_bounds_witness :
    (cfMeshPlain.extent = cfMdW.wholeExtent
      ∧ cfMeshPlain.bounds = coordBounds cfMdW.coords cfMdW.wholeExtent)
    ∧ cfReaderExecute cfPropsBase cfMdW (fun _ => true) cfReqBadBounds = none
    ∧ (cfMeshPlain.extent = cfExtGood ∧ cfMeshPlain.bounds = cfBndGood) :=
  ⟨(cf_execute_extent_bounds cfPropsBase cfMdW (fun _ => true) cfReqPlain
      cfMeshPlain cfBndGood cfExtGood).1 rfl rfl (by decide),
   (cf_execute_extent_bounds cfPropsBase cfMdW (fun _ => true) cfReqBadBounds
      cfMeshPlain cfBndBad cfExtGood).2.1 rfl (by decide),
   (cf_execute_extent_bounds cfPropsBase cfMdW (fun _ => true) cfReqGoodBounds
      cfMeshPlain cfBndGood cfExtGood).2.2 rfl (by decide) (by decide)⟩

lemma readArraysLoop_name_resolvable (p : CfReaderProps)
    (attrs : List (String × AttInfo)) (file : String) (e : Ext6) (offs : ℕ) :
    ∀ (arrays : List String) (name : String),
      (name ∈ (readArraysLoop p attrs file e offs arrays).1.map Prod.fst
       ∨ name ∈ (readArraysLoop p attrs file e offs arrays).2.map Prod.fst) →
      (lookupAttr attrs name).isSome = true := by
  intro arrays
  induction arrays with
  | nil =>
    intro name h
    simp [readArraysLoop] at h
  | cons a rest ih =>
    intro name h
    simp only [readArraysLoop] at h
    cases hl : lookupAttr attrs a with
    | none =>
      simp only [hl] at h
      exact ih name h
    | some info =>
      simp only [hl] at h
      by_cases hd : info.dimNames = meshDimNames p
      · rw [if_pos hd] at h
        simp only [List.map_cons, List.mem_cons] at h
        rcases h with (h | h) | h
        · subst h; rw [hl]; rfl
        · exact ih name (Or.inl h)
        · exact ih name (Or.inr h)
      · rw [if_neg hd] at h
        simp only [List.map_cons, List.mem_cons] at h
        rcases h with h | (h | h)
        · exact ih name (Or.inl h)
        · subst h; rw [hl]; rfl
        · exact ih name (Or.inr h)

def cfReqMissingArray : ReadRequest := { cfReqPlain with arrays := [("foo"), ("T")] }

/-- C6 counterexample: a request naming the array `"foo"`, which has no
attribute metadata in the file, still yields a (non-null) mesh — the read
loop logs the error and `continue`s instead of returning the null dataset. -/
theorem cf_execute_missing_array_cex :
    cfReaderExecute cfPropsBase cfMdW (fun _ => true) cfReqMissingArray ≠ none := by
  decide

/-- C6 amended: a requested array whose attribute metadata cannot be resolved
is skipped after the structured error is logged — the returned mesh is
non-null and simply omits that array from both its point and information
array collections; the null sentinel is reserved for the other failure paths
(missing metadata keys, invalid time step, invalid bounds, failed file open). -/
theorem cf_execute_missing_array_skipped (p : CfReaderProps) (md : ReaderMd)
    (openable : String → Bool) (req : ReadRequest) (name : String) (m : OutMesh)
    (h1 : lookupAttr md.attrs name = none)
    (h2 : cfReaderExecute p md openable req = some m) :
    name ∉ m.pointArrays.map Prod.fst ∧ name ∉ m.infoArrays.map Prod.fst := by
  simp only [cfReaderExecute] at h2
  cases ht : resolveTimeStep md.coords.t req with
  | none => simp [ht] at h2
  | some p1 =>
    obtain ⟨ts, tv⟩ := p1
    simp only [ht] at h2
    cases hx : resolveExtentBounds md.coords md.wholeExtent req with
    | none => simp [hx] at h2
    | some p2 =>
      obtain ⟨e, b⟩ := p2
      simp only [hx] at h2
      cases h3 : md.files[(resolve_step md.stepCount ts).1]? with
      | none => simp [h3] at h2
      | some file =>
        simp only [h3] at h2
        by_cases ho : openable (md.rootPath ++ ("/") ++ file) = true
        · simp only [ho, if_true] at h2
          obtain rfl := Option.some.inj h2
          constructor
          · intro hmem
            have := readArraysLoop_name_resolvable p md.attrs file e
              (resolve_step md.stepCount ts).2 req.arrays name (Or.inl hmem)
            rw [h1] at this
            simp at this
          · intro hmem
            have := readArraysLoop_name_resolvable p md.attrs file e
              (resolve_step md.stepCount ts).2 req.arrays name (Or.inr hmem)
            rw [h1] at this
            simp at this
        · simp [ho] at h2

def cfMeshFoo : OutMesh :=
  { cfMeshPlain with
    pointArrays := [(("T"), { file := ("a.nc"), starts := [0, 0, 0],
                              counts := [1, 2, 2] })] }

/-- Witness for the amended C6 claim: the concrete run returns the mesh holding
only the resolvable array `"T"`, with `"foo"` absent. -/
theorem cf_execute_missing_array_skipped_witness :
    ("foo" : String) ∉ cfMeshFoo.pointArrays.map Prod.fst
    ∧ ("foo" : String) ∉ cfMeshFoo.infoArrays.map Prod.fst :=
  cf_execute_missing_array_skipped cfPropsBase cfMdW (fun _ => true)
    cfReqMissingArray ("foo") cfMeshFoo (by decide) (by decide)
